import Mathlib

/-!
Verification of the RCF weekly-podiums pipeline.

A shallow embedding of `rcf-discord-news/weekly_podiums.py` (the
ZwiftPower → Discord weekly-podium reporter) together with theorems that
settle the specification claims about it.

Modelling conventions:
* Python strings are Lean `String`s; regular expressions used by the script
  are modelled as executable character-list scanners with the same match
  semantics (documented at each definition).
* `datetime` instants are modelled as seconds since the Unix epoch (`Int`),
  with civil-calendar conversion by the standard era-based algorithm.
* BeautifulSoup's HTML handling is abstracted: a table row is modelled as
  its list of cell texts (`get_text(" ", strip=True)` results) plus its
  list of hyperlink anchors (href and text, in document order); an event
  page is modelled as its visible text.
* Python dictionaries are modelled as functions `String → Option String`.
* Network fetches have two models.  `String → Option String` (`none` =
  the script's `fetch` returned `None`) covers every execution in which
  no `requests` exception is raised.  `String → FetchResult` adds the
  third outcome — `requests.get` raising, which nothing in the script
  catches — and drives the exception-aware pipeline (`get_event_typeE`,
  `runMainE`, `mainRunE`); the bridge lemmas `get_event_typeE_noexn` and
  `runMainE_noexn` prove the first model is exactly the no-exception
  restriction of the second.
-/

/-! ## String scanning utilities -/

/-- Substring test: `listContains pat l` is true iff `pat` occurs
contiguously in `l` (the semantics of Python's `pat in l`). -/
def listContains (pat : List Char) (l : List Char) : Bool :=
  match l with
  | [] => pat.isEmpty
  | c :: t => List.isPrefixOf pat (c :: t) || listContains pat t

/-- Python's `pat in s` on strings. -/
def strContains (s pat : String) : Bool :=
  listContains pat.data s.data

/-- Decimal value of a digit list. -/
def natOfDigits (l : List Char) : Nat :=
  l.foldl (fun a c => a * 10 + (c.toNat - 48)) 0

/-- Python `s.lower()` (ASCII; the keyword sets this system compares
against are ASCII). -/
def toLowerStr (s : String) : String :=
  String.mk (s.data.map Char.toLower)

/-- Python `s.strip()`: whitespace removed from both ends. -/
def stripStr (s : String) : String :=
  String.mk
    (((s.data.dropWhile (fun c => c.isWhitespace)).reverse.dropWhile
      (fun c => c.isWhitespace)).reverse)

/-- Python `s.replace(pat, rep)`: left-to-right, non-overlapping
replacement of every occurrence.  Fuel-structured recursion (the fuel,
instantiated with the input length, never runs out because each step
consumes at least one character). -/
def replaceFuel (pat rep : List Char) : Nat → List Char → List Char
  | _, [] => []
  | 0, l => l
  | fuel + 1, c :: t =>
    if !pat.isEmpty && List.isPrefixOf pat (c :: t) then
      rep ++ replaceFuel pat rep fuel ((c :: t).drop pat.length)
    else
      c :: replaceFuel pat rep fuel t

/-- Python `s.replace(pat, rep)` on strings. -/
def replaceStr (s pat rep : String) : String :=
  String.mk (replaceFuel pat.data rep.data s.data.length s.data)

/-- Python regex word character (`\w`), ASCII fragment. -/
def isWordChar (c : Char) : Bool :=
  c.isAlphanum || c == '_'

/-! ## The regexes of `parse_team_results` -/

/-- The rank-cell regex `^\s*(\d+)\s*$` (weekly_podiums.py line 163):
optional leading whitespace, a digit run, optional trailing whitespace,
nothing else.  Returns the integer value of the digit run. -/
def matchRankCell (s : String) : Option Nat :=
  let l1 := s.data.dropWhile (fun c => c.isWhitespace)
  let ds := l1.takeWhile (fun c => c.isDigit)
  let rest := l1.dropWhile (fun c => c.isDigit)
  if !ds.isEmpty && rest.all (fun c => c.isWhitespace) then
    some (natOfDigits ds)
  else
    none

/-- Suffix of the date-shape regex: one or two digits, a dash-or-slash
separator, then one or two digits, matched as a prefix of `l`
(existence of a match under regex backtracking). -/
def tailMatch (l : List Char) : Bool :=
  match l with
  | a :: b :: c :: rest =>
    (a.isDigit && (b == '-' || b == '/') && c.isDigit) ||
    (match rest with
     | d :: _ => a.isDigit && b.isDigit && (c == '-' || c == '/') && d.isDigit
     | [] => false)
  | _ => false

/-- Matches the full date shape (four digits, dash-or-slash, one or two
digits, dash-or-slash, one or two digits) as a prefix of `l`. -/
def headMatch (l : List Char) : Bool :=
  match l with
  | a :: b :: c :: d :: s :: rest =>
    a.isDigit && b.isDigit && c.isDigit && d.isDigit &&
    (s == '-' || s == '/') && tailMatch rest
  | _ => false

/-- Model of `re.search` of the date-shape pattern: a match starting anywhere. -/
def searchDateLike (l : List Char) : Bool :=
  match l with
  | [] => false
  | c :: t => headMatch (c :: t) || searchDateLike t

/-- The date-detection heuristic of weekly_podiums.py line 176:
`re.search` of the date-shape pattern (4 digits, dash-or-slash, 1-2
digits, dash-or-slash, 1-2 digits) anywhere in the cell text. -/
def dateLike (s : String) : Bool :=
  searchDateLike s.data

/-- Matches `profile\.php\?z=\d+` as a prefix of `l`. -/
def profileAt (l : List Char) : Bool :=
  List.isPrefixOf "profile.php?z=".data l &&
  (match l.drop 14 with
   | c :: _ => c.isDigit
   | [] => false)

/-- Model of `re.search` of the profile-link pattern over a href string. -/
def searchProfileAux (l : List Char) : Bool :=
  match l with
  | [] => false
  | c :: t => profileAt (c :: t) || searchProfileAux t

/-- The actor-profile link test of weekly_podiums.py line 191:
`re.compile(r"profile\.php\?z=\d+")` searched against a href. -/
def hasProfileLink (s : String) : Bool :=
  searchProfileAux s.data

/-- First match of the category regex `\b([ABCD])\b`
(weekly_podiums.py line 197), scanning left to right with word
boundaries on both sides.  `prev` is the character before the scan
position (`none` at start of string). -/
def findCatAux (prev : Option Char) (l : List Char) : Option Char :=
  match l with
  | [] => none
  | c :: rest =>
    if (c == 'A' || c == 'B' || c == 'C' || c == 'D')
        && (match prev with | none => true | some p => !isWordChar p)
        && (match rest with | [] => true | n :: _ => !isWordChar n) then
      some c
    else
      findCatAux (some c) rest

/-- Model of `re.search(r"\b([ABCD])\b", s)`, returning the captured letter. -/
def findCat (s : String) : Option Char :=
  findCatAux none s.data

/-- Whether `prev` allows a word boundary before the current position. -/
def prevNonWord (p : Option Char) : Bool :=
  match p with
  | none => true
  | some c => !isWordChar c

/-- Model of `re.search(r"\btt\b", s)`: the literal `tt` with word boundaries. -/
def searchTTAux (prev : Option Char) (l : List Char) : Bool :=
  match l with
  | [] => false
  | c :: rest =>
    (c == 't' &&
      (match rest with
       | c2 :: r2 =>
         c2 == 't' && prevNonWord prev &&
         (match r2 with | [] => true | n :: _ => !isWordChar n)
       | [] => false)) || searchTTAux (some c) rest

/-- Word-bounded `tt` search used by `detect_event_type_from_html`. -/
def hasTTword (s : String) : Bool :=
  searchTTAux none s.data

/-! ## Calendar arithmetic (UTC instants as epoch seconds) -/

/-- Gregorian leap-year test. -/
def isLeap (y : Nat) : Bool :=
  (y % 4 == 0 && y % 100 != 0) || y % 400 == 0

/-- Number of days in a month. -/
def daysInMonth (y m : Nat) : Nat :=
  if m == 2 then (if isLeap y then 29 else 28)
  else if m == 4 || m == 6 || m == 9 || m == 11 then 30
  else 31

/-- Days from the Unix epoch to civil date `y-m-d`
(era-based civil-calendar algorithm). -/
def daysFromCivil (y m d : Int) : Int :=
  let y1 := if m ≤ 2 then y - 1 else y
  let era := y1.fdiv 400
  let yoe := y1 - era * 400
  let mp := (m + 9) % 12
  let doy := (153 * mp + 2).fdiv 5 + d - 1
  let doe := yoe * 365 + yoe.fdiv 4 - yoe.fdiv 100 + doy
  era * 146097 + doe - 719468

/-- Civil date `(y, m, d)` of a day number relative to the Unix epoch
(inverse of `daysFromCivil`). -/
def civilFromDays (z0 : Int) : Int × Int × Int :=
  let z := z0 + 719468
  let era := z.fdiv 146097
  let doe := z - era * 146097
  let yoe := (doe - doe.fdiv 1460 + doe.fdiv 36524 - doe.fdiv 146096).fdiv 365
  let y := yoe + era * 400
  let doy := doe - (365 * yoe + yoe.fdiv 4 - yoe.fdiv 100)
  let mp := (5 * doy + 2).fdiv 153
  let d := doy - (153 * mp + 2).fdiv 5 + 1
  let m := if mp < 10 then mp + 3 else mp - 9
  (if m ≤ 2 then y + 1 else y, m, d)

/-- Epoch seconds of a UTC civil date-time. -/
def epochOfDateTime (y m d h mi s : Nat) : Int :=
  daysFromCivil y m d * 86400 + (h * 3600 + mi * 60 + s : Nat)

/-- Two-digit zero-padded decimal. -/
def pad2 (n : Nat) : String :=
  if n < 10 then "0" ++ toString n else toString n

/-- Four-digit zero-padded decimal. -/
def pad4 (n : Nat) : String :=
  if n < 10 then "000" ++ toString n
  else if n < 100 then "00" ++ toString n
  else if n < 1000 then "0" ++ toString n
  else toString n

/-- Python `datetime.isoformat()` of a timezone-aware UTC instant with
whole-second precision: `YYYY-MM-DDTHH:MM:SS+00:00`. -/
def isoformatUTC (t : Int) : String :=
  let days := t.fdiv 86400
  let sod := (t - days * 86400).toNat
  let ymd := civilFromDays days
  pad4 ymd.1.toNat ++ "-" ++ pad2 ymd.2.1.toNat ++ "-" ++ pad2 ymd.2.2.toNat
    ++ "T" ++ pad2 (sod / 3600) ++ ":" ++ pad2 (sod % 3600 / 60) ++ ":"
    ++ pad2 (sod % 60) ++ "+00:00"

/-! ## The `datetime.strptime` model

The script tries, in order, the formats
`"%Y-%m-%d %H:%M:%S"`, `"%d/%m/%Y %H:%M:%S"`, `"%Y-%m-%d"`, `"%d/%m/%Y"`
(weekly_podiums.py line 203).  CPython compiles each format to a regex:
`%Y` is exactly four digits, `%d`/`%m` are one or two digits constrained to
1–31 / 1–12, `%H`/`%M`/`%S` are one or two digits constrained to 0–23 /
0–59 / 0–61, a literal space matches one-or-more whitespace, the whole
string must be consumed, and the resulting `datetime` constructor validates
the day against the month length and rejects seconds above 59.  Each
numeric field here is followed by a non-digit literal or end of string, so
under backtracking the field must consume its entire maximal digit run. -/

/-- Maximal digit-run split. -/
def takeDigits (l : List Char) : List Char × List Char :=
  (l.takeWhile (fun c => c.isDigit), l.dropWhile (fun c => c.isDigit))

/-- A run of one or two digits. -/
def chkLen12 (ds : List Char) : Bool :=
  ds.length == 1 || ds.length == 2

/-- CPython `%d` field shape: 1–31. -/
def chkD (ds : List Char) : Bool :=
  chkLen12 ds && decide (1 ≤ natOfDigits ds) && decide (natOfDigits ds ≤ 31)

/-- CPython `%m` field shape: 1–12. -/
def chkM (ds : List Char) : Bool :=
  chkLen12 ds && decide (1 ≤ natOfDigits ds) && decide (natOfDigits ds ≤ 12)

/-- CPython `%H` field shape: 0–23. -/
def chkH (ds : List Char) : Bool :=
  chkLen12 ds && decide (natOfDigits ds ≤ 23)

/-- CPython `%M` field shape: 0–59. -/
def chkMin (ds : List Char) : Bool :=
  chkLen12 ds && decide (natOfDigits ds ≤ 59)

/-- CPython `%S` field shape: 0–61. -/
def chkS (ds : List Char) : Bool :=
  chkLen12 ds && decide (natOfDigits ds ≤ 61)

/-- CPython `%Y` field shape: exactly four digits. -/
def chkY (ds : List Char) : Bool :=
  ds.length == 4

/-- Parser for `%H:%M:%S`, consuming the entire remaining input. -/
def parseHMS (l : List Char) : Option (Nat × Nat × Nat) :=
  let p1 := takeDigits l
  match p1.2 with
  | ':' :: r2 =>
    let p2 := takeDigits r2
    match p2.2 with
    | ':' :: r4 =>
      let p3 := takeDigits r4
      if p3.2.isEmpty && chkH p1.1 && chkMin p2.1 && chkS p3.1 then
        some (natOfDigits p1.1, natOfDigits p2.1, natOfDigits p3.1)
      else none
    | _ => none
  | _ => none

/-- Parser for `%Y-%m-%d` as a prefix; returns the unconsumed rest. -/
def parseYMDpart (l : List Char) : Option (Nat × Nat × Nat × List Char) :=
  let p1 := takeDigits l
  if !chkY p1.1 then none else
  match p1.2 with
  | '-' :: r2 =>
    let p2 := takeDigits r2
    if !chkM p2.1 then none else
    match p2.2 with
    | '-' :: r4 =>
      let p3 := takeDigits r4
      if !chkD p3.1 then none else
        some (natOfDigits p1.1, natOfDigits p2.1, natOfDigits p3.1, p3.2)
    | _ => none
  | _ => none

/-- Parser for `%d/%m/%Y` as a prefix; returns the unconsumed rest. -/
def parseDMYpart (l : List Char) : Option (Nat × Nat × Nat × List Char) :=
  let p1 := takeDigits l
  if !chkD p1.1 then none else
  match p1.2 with
  | '/' :: r2 =>
    let p2 := takeDigits r2
    if !chkM p2.1 then none else
    match p2.2 with
    | '/' :: r4 =>
      let p3 := takeDigits r4
      if !chkY p3.1 then none else
        some (natOfDigits p3.1, natOfDigits p2.1, natOfDigits p1.1, p3.2)
    | _ => none
  | _ => none

/-- Full-string match of `"%Y-%m-%d %H:%M:%S"` (the literal space matches
one-or-more whitespace characters, as CPython's strptime does). -/
def fmtYMD_HMS (l : List Char) : Option (Nat × Nat × Nat × Nat × Nat × Nat) :=
  match parseYMDpart l with
  | some (y, mo, d, r) =>
    let r2 := r.dropWhile (fun c => c.isWhitespace)
    if r.length == r2.length then none
    else
      match parseHMS r2 with
      | some (h, mi, s) => some (y, mo, d, h, mi, s)
      | none => none
  | none => none

/-- Full-string match of `"%d/%m/%Y %H:%M:%S"`. -/
def fmtDMY_HMS (l : List Char) : Option (Nat × Nat × Nat × Nat × Nat × Nat) :=
  match parseDMYpart l with
  | some (y, mo, d, r) =>
    let r2 := r.dropWhile (fun c => c.isWhitespace)
    if r.length == r2.length then none
    else
      match parseHMS r2 with
      | some (h, mi, s) => some (y, mo, d, h, mi, s)
      | none => none
  | none => none

/-- Full-string match of `"%Y-%m-%d"`. -/
def fmtYMDonly (l : List Char) : Option (Nat × Nat × Nat × Nat × Nat × Nat) :=
  match parseYMDpart l with
  | some (y, mo, d, r) => if r.isEmpty then some (y, mo, d, 0, 0, 0) else none
  | none => none

/-- Full-string match of `"%d/%m/%Y"`. -/
def fmtDMYonly (l : List Char) : Option (Nat × Nat × Nat × Nat × Nat × Nat) :=
  match parseDMYpart l with
  | some (y, mo, d, r) => if r.isEmpty then some (y, mo, d, 0, 0, 0) else none
  | none => none

/-- The `datetime` constructor validation applied after a format regex
matches: day within month length, year at least 1, second at most 59.
On success the instant is interpreted as UTC
(`.replace(tzinfo=timezone.utc)`, weekly_podiums.py line 205). -/
def mkDatetimeUTC (y mo d h mi s : Nat) : Option Int :=
  if 1 ≤ y ∧ d ≤ daysInMonth y mo ∧ s ≤ 59 then
    some (epochOfDateTime y mo d h mi s)
  else
    none

/-- Uncurried `mkDatetimeUTC`. -/
def mkDatetimeQ (q : Nat × Nat × Nat × Nat × Nat × Nat) : Option Int :=
  match q with
  | (y, mo, d, h, mi, s) => mkDatetimeUTC y mo d h mi s

/-- The strptime fallback chain of weekly_podiums.py lines 202-208:
the four formats are tried in order; a format whose regex matches but whose
`datetime` construction fails (e.g. day out of range for the month) raises
and falls through to the next format. -/
def strp (s : String) : Option Int :=
  let l := s.data
  match (fmtYMD_HMS l).bind mkDatetimeQ with
  | some v => some v
  | none =>
    match (fmtDMY_HMS l).bind mkDatetimeQ with
    | some v => some v
    | none =>
      match (fmtYMDonly l).bind mkDatetimeQ with
      | some v => some v
      | none => (fmtDMYonly l).bind mkDatetimeQ

/-! ## Row extraction (`parse_team_results`) -/

/-- A hyperlink anchor with a href attribute (BeautifulSoup
`find("a", href=True)` only considers anchors that carry a href). -/
structure Anchor where
  href : String
  text : String
deriving Repr, DecidableEq

/-- A table row: its cell texts (`td.get_text(" ", strip=True)` for each
`td`, in order) and its anchors (in document order). -/
structure Row where
  tds : List String
  anchors : List Anchor
deriving Repr, DecidableEq

/-- A parsed result dict (weekly_podiums.py lines 212-221).  `date` is the
UTC instant in epoch seconds. -/
structure ResultRec where
  event : String
  date : Int
  rider : String
  pos : Nat
  category : String
  link : String
deriving Repr, DecidableEq

/-- Constant `BASE` (weekly_podiums.py line 46). -/
def BASE : String := "https://zwiftpower.com"

/-- Python `href.lstrip("/")`. -/
def lstripSlash (s : String) : String :=
  String.mk (s.data.dropWhile (fun c => c == '/'))

/-- The per-row body of `parse_team_results` (weekly_podiums.py lines
156-221), in source order:
1. skip rows with fewer than four cells;
2. rank: the first cell fully matching the rank regex, via `int(...)`;
   a falsy rank (no match, or value `0`) skips the row;
3. timestamp text: the first cell containing a date-shaped substring;
   none found skips the row;
4. event: the row's **first** anchor must have `"events.php"` in its
   href, else the row is skipped; name is its text, link is
   `BASE + "/" + href.lstrip("/")`;
5. rider: the first anchor whose href matches the profile-link regex;
   a missing anchor or empty text degrades to `"Unknown"` (the record
   is still produced);
6. category: the first cell with a word-bounded A, B, C or D, else `"?"`;
7. timestamp: `strptime` fallback chain; failure skips the row. -/
def processRow (row : Row) : Option ResultRec :=
  if row.tds.length < 4 then none else
  match List.findSome? matchRankCell row.tds with
  | none => none
  | some p =>
    if p == 0 then none else
    match row.tds.find? (fun t => dateLike t) with
    | none => none
    | some dtText =>
      match row.anchors.head? with
      | none => none
      | some a =>
        if strContains a.href "events.php" then
          let evName := a.text
          let evLink := BASE ++ "/" ++ lstripSlash a.href
          let rider :=
            match row.anchors.find? (fun a2 => hasProfileLink a2.href) with
            | some a2 => a2.text
            | none => ""
          let cat :=
            match List.findSome? (fun td => findCat td) row.tds with
            | some c => String.mk [c]
            | none => "?"
          match strp dtText with
          | none => none
          | some w =>
            some { event := evName, date := w,
                   rider := if rider == "" then "Unknown" else rider,
                   pos := p, category := cat, link := evLink }
        else none

/-- Function `parse_team_results` (weekly_podiums.py lines 149-223): all tables,
all rows, appending each successfully parsed record in order.  The
document is modelled post-markup-parsing as its tables' rows. -/
def parse_team_results (tables : List (List Row)) : List ResultRec :=
  (tables.map (fun rows => rows.filterMap processRow)).flatten

/-! ## Event-type classification -/

/-- Constant `ALLOWED_EVENT_TYPES` (weekly_podiums.py lines 77-79); a Python set,
modelled as a list of its elements. -/
def ALLOWED_EVENT_TYPES : List String :=
  ["race", "time trial", "tt", "road race", "criterium", "crit", "scratch"]

/-- Constant `DENY_EVENT_TYPES` (weekly_podiums.py lines 80-83); a Python set,
modelled as a list of its elements (iteration order of a Python set is
arbitrary; no claim depends on the order within this list). -/
def DENY_EVENT_TYPES : List String :=
  ["group ride", "workout", "group workout", "training", "pace partner",
   "social ride", "fondo", "tour", "badge hunt"]

/-- Function `_normalize_event_type` (weekly_podiums.py lines 255-260): strip,
lowercase, rewrite the synonyms `"time-trial"` and `"tt race"` to
`"time trial"`. -/
def normalize_event_type (text : String) : String :=
  replaceStr (replaceStr (toLowerStr (stripStr text)) "time-trial" "time trial")
    "tt race" "time trial"

/-- Keyword cascade of `detect_event_type_from_html` (weekly_podiums.py lines 262-296).
BeautifulSoup's HTML-to-visible-text step is abstracted: the input is
modelled as the page's visible text, which the function lowercases (as
the source does).  The deny keywords are checked first; any match
returns that keyword immediately.  Only then are the allow keywords
tried, then the remaining (unreachable after the deny loop) generic
branches, and finally `"unknown"`. -/
def detect_event_type_from_text (txt : String) : String :=
  match DENY_EVENT_TYPES.find? (fun kw => strContains txt kw) with
  | some kw => kw
  | none =>
    if strContains txt "time trial" || hasTTword txt then "time trial"
    else if strContains txt "criterium" || strContains txt "crit" then "crit"
    else if strContains txt "race" || strContains txt "road race"
            || strContains txt "scratch" then "race"
    else if strContains txt "group ride" || strContains txt "social ride" then "group ride"
    else if strContains txt "workout" || strContains txt "group workout"
            || strContains txt "training" then "workout"
    else if strContains txt "pace partner" then "pace partner"
    else if strContains txt "fondo" then "fondo"
    else if strContains txt "tour" then "tour"
    else if strContains txt "badge hunt" then "badge hunt"
    else "unknown"

/-- Function `detect_event_type_from_html` proper: the source computes
`txt = BeautifulSoup(html).get_text(" ", strip=True).lower()` and then
runs the keyword cascade on `txt`. -/
def detect_event_type_from_html (html : String) : String :=
  detect_event_type_from_text (toLowerStr html)

/-- Result of one `get_event_type` call: the token, the updated cache,
and the number of network fetches performed (0 or 1). -/
structure ClassifyOut where
  token : String
  cache : String → Option String
  fetches : Nat

/-- Pointwise update of a dict modelled as a function
(`cache[ev_link] = etype`). -/
def updateMap (m : String → Option String) (k v : String) : String → Option String :=
  fun x => if x == k then some v else m x

/-- Function `get_event_type` (weekly_podiums.py lines 298-314).  `f` is the
`fetch` collaborator: `f url = none` models `fetch` returning `None`
(HTTP error or detected login page).  A cached link is returned with no
fetch; otherwise the page is fetched (`none` **or an empty page** is
falsy in `if not html` and degrades to `"unknown"`), the type is
detected, normalized, and written into the cache before returning. -/
def get_event_type (f : String → Option String) (ev_link : String)
    (cache : String → Option String) : ClassifyOut :=
  match cache ev_link with
  | some t => ⟨t, cache, 0⟩
  | none =>
    let etype :=
      match f ev_link with
      | none => "unknown"
      | some h => if h == "" then "unknown" else detect_event_type_from_html h
    let etype := normalize_event_type etype
    ⟨etype, updateMap cache ev_link etype, 1⟩

/-- Function `is_allowed_event_type` (weekly_podiums.py lines 316-323): normalize;
deny-set members are rejected, allow-set members accepted, anything else
(including `"unknown"`) rejected. -/
def is_allowed_event_type (etype : String) : Bool :=
  let e := normalize_event_type etype
  if e ∈ DENY_EVENT_TYPES then false
  else if e ∈ ALLOWED_EVENT_TYPES then true
  else false

/-- The response-classification tail of `fetch` (weekly_podiums.py lines
117-147), given the HTTP status and body text: status 400+ returns
`None`; a body whose lowercase text contains both `"login"` and
`"password"`, or the login-endpoint path `"ucp.php?mode=login"`, is an
authentication failure and also returns `None`; otherwise the body is
returned. -/
def fetch_result (status : Nat) (text : String) : Option String :=
  if 400 ≤ status then none
  else
    let low := toLowerStr text
    if (strContains low "login" && strContains low "password")
        || strContains low "ucp.php?mode=login" then none
    else some text

/-- The complete outcome of one `fetch` call.  `requests.get`
(weekly_podiums.py line 123) is **not** wrapped in a try/except, so a
raised transport error (timeout, connection failure) propagates out of
`fetch` — a third outcome distinct from `fetch` *returning* `None`
(HTTP status 400+, or the detected login page) and from returning the
page text. -/
inductive FetchResult where
  | exn
  | page (r : Option String)
deriving Repr, DecidableEq

/-- Function `fetch` in full (weekly_podiums.py lines 117-147): either
`requests.get` raises (`raised = true`, the exception propagates), or
the status/body tail `fetch_result` decides between `None` and the
text. -/
def fetchE (raised : Bool) (status : Nat) (text : String) : FetchResult :=
  if raised then FetchResult.exn
  else FetchResult.page (fetch_result status text)

/-! ## The main pipeline (`main`, weekly_podiums.py lines 373-446) -/

/-- The dedup identity of a record (weekly_podiums.py line 422):
`f"{ev_link}|{rider}|{pos}|{date.isoformat()}"`. -/
def uidOf (r : ResultRec) : String :=
  r.link ++ "|" ++ r.rider ++ "|" ++ toString r.pos ++ "|" ++ isoformatUTC r.date

/-- Mutable state of the main loop: accepted podiums, freshly accepted
identities (`new_ids`, a set), the per-run memo `checked_event_types`,
the persistent `etype_cache`, and the number of classification fetches
performed. -/
structure MainState where
  podiums : List ResultRec
  newIds : List String
  checked : String → Option String
  cache : String → Option String
  fetches : Nat

/-- Adding to the `new_ids` set, modelled on lists. -/
def insertNew (l : List String) (x : String) : List String :=
  if x ∈ l then l else l ++ [x]

/-- The per-record classification step of the main loop (weekly_podiums.py
lines 411-416): consult the per-run memo `checked_event_types`; a missing
**or falsy (empty-string)** memo entry calls `get_event_type` and stores
the token in the memo. -/
def classifyStep (f : String → Option String) (st : MainState) (link : String) :
    String × MainState :=
  match st.checked link with
  | some e =>
    if e == "" then
      let o := get_event_type f link st.cache
      (o.token, { st with cache := o.cache, fetches := st.fetches + o.fetches,
                          checked := updateMap st.checked link o.token })
    else (e, st)
  | none =>
    let o := get_event_type f link st.cache
    (o.token, { st with cache := o.cache, fetches := st.fetches + o.fetches,
                        checked := updateMap st.checked link o.token })

/-- One iteration of the main loop (weekly_podiums.py lines 403-427):
skip if the record is older than `now - 7 days` (UTC instant
comparison), if its position exceeds 3, or if its rider is ignored;
classify the event; skip if the type is not allowed; skip if the
identity is already in the ledger; otherwise accept the record and its
identity. -/
def mainStep (f : String → Option String) (now : Int) (seen ignore : List String)
    (st : MainState) (r : ResultRec) : MainState :=
  if r.date < now - 7 * 86400 then st
  else if 3 < r.pos then st
  else if r.rider ∈ ignore then st
  else if is_allowed_event_type (classifyStep f st r.link).1 then
    if uidOf r ∈ seen then (classifyStep f st r.link).2
    else { (classifyStep f st r.link).2 with
           podiums := (classifyStep f st r.link).2.podiums ++ [r],
           newIds := insertNew (classifyStep f st r.link).2.newIds (uidOf r) }
  else (classifyStep f st r.link).2

/-- The full main loop over the parsed results (weekly_podiums.py lines
397-427), starting from empty podiums, empty `new_ids`, an empty
per-run memo and the loaded persistent cache. -/
def runMain (f : String → Option String) (now : Int) (seen ignore : List String)
    (cache0 : String → Option String) (results : List ResultRec) : MainState :=
  results.foldl (mainStep f now seen ignore) ⟨[], [], fun _ => none, cache0, 0⟩

/-- Union `seen |= new_ids` (weekly_podiums.py line 442), modelled on lists:
append the identities not already present.  (`save_seen` writes the
sorted list of this set; sorting only permutes it and is omitted.) -/
def ledgerUnion (seen newIds : List String) : List String :=
  seen ++ newIds.filter (fun x => !seen.elem x)

/-- The commit tail of `main` (weekly_podiums.py lines 434-446), returning
the persisted ledger content.  `postOk = false` models
`post_to_discord` raising (`requests.post` failed or Discord returned
status 300+): the handler prints and returns before `save_seen`, so the
ledger is unchanged.  With nothing to post and no `ALWAYS_POST`, or with
a forced post of an empty list, no ledger write happens either. -/
def mainCommit (seen : List String) (podiums : List ResultRec)
    (newIds : List String) (postOk alwaysPost : Bool) : List String :=
  if podiums.isEmpty && !alwaysPost then seen
  else if !postOk then seen
  else if podiums.isEmpty then seen
  else ledgerUnion seen newIds

/-- Function `main` end to end (weekly_podiums.py lines 373-446), returning the
persisted ledger, for executions in which no fetch raises.  `primary =
none` models the primary team-page fetch **returning** `None` (HTTP
error status or detected login page): `main` prints an error and
returns immediately — nothing is parsed, posted or committed.  The
raised-exception paths are covered by `mainRunE` below. -/
def mainRun (primary : Option (List (List Row))) (f : String → Option String)
    (now : Int) (seen ignore : List String) (cache0 : String → Option String)
    (postOk alwaysPost : Bool) : List String :=
  match primary with
  | none => seen
  | some doc =>
    let st := runMain f now seen ignore cache0 (parse_team_results doc)
    mainCommit seen st.podiums st.newIds postOk alwaysPost

/-- The empty persistent cache / ledger-free starting state. -/
def emptyCache : String → Option String := fun _ => none

/-- Spec-side definition for the refinement comparison of claim C1,
following the spec's words (§4.3 Temporal Window): convert `now` and the
record's instant to the configured timezone (given here as a fixed
UTC offset in seconds, e.g. 10800 for Helsinki summer time, which is
the correct offset for every instant this development evaluates it at),
take their local calendar days, and test inclusive membership of the
record's local day in `[today - 6 days, today]`. -/
def spec_inWindow (offset now t : Int) : Bool :=
  let today := (now + offset).fdiv 86400
  let d := (t + offset).fdiv 86400
  decide (today - 6 ≤ d) && decide (d ≤ today)

/-! ## The exception-aware pipeline

Nothing between `requests.get` (weekly_podiums.py line 123) and the
top-level `main()` call catches exceptions apart from the
`post_to_discord` try/except, so a raised transport error during a
classification fetch propagates out of `get_event_type`, out of the main
loop, and kills the process before `_save_event_type_cache` (line 430)
or `save_seen` (line 443) run.  The functions below repeat the pipeline
over the full fetch model, with `none` meaning "an exception escaped";
for fetchers that never raise they coincide with the functions above
(`get_event_typeE_noexn`, `runMainE_noexn`). -/

/-- Function `get_event_type` over the full fetch model: a raised fetch
propagates (`none`); a fetch that returns propagates nothing and behaves
exactly as `get_event_type`. -/
def get_event_typeE (f : String → FetchResult) (ev_link : String)
    (cache : String → Option String) : Option ClassifyOut :=
  match cache ev_link with
  | some t => some ⟨t, cache, 0⟩
  | none =>
    match f ev_link with
    | FetchResult.exn => none
    | FetchResult.page h =>
      let etype :=
        match h with
        | none => "unknown"
        | some h' => if h' == "" then "unknown" else detect_event_type_from_html h'
      let etype := normalize_event_type etype
      some ⟨etype, updateMap cache ev_link etype, 1⟩

/-- The per-record classification step over the full fetch model
(weekly_podiums.py lines 411-416): a memo hit touches no network; a miss
calls `get_event_typeE`, whose raised exception propagates. -/
def classifyStepE (f : String → FetchResult) (st : MainState) (link : String) :
    Option (String × MainState) :=
  match st.checked link with
  | some e =>
    if e == "" then
      (get_event_typeE f link st.cache).map (fun o =>
        (o.token, { st with cache := o.cache, fetches := st.fetches + o.fetches,
                            checked := updateMap st.checked link o.token }))
    else some (e, st)
  | none =>
    (get_event_typeE f link st.cache).map (fun o =>
      (o.token, { st with cache := o.cache, fetches := st.fetches + o.fetches,
                          checked := updateMap st.checked link o.token }))

/-- One main-loop iteration over the full fetch model: the window, rank
and ignore filters never fetch, so they cannot raise; a raised
classification fetch propagates (`none`). -/
def mainStepE (f : String → FetchResult) (now : Int) (seen ignore : List String)
    (st : MainState) (r : ResultRec) : Option MainState :=
  if r.date < now - 7 * 86400 then some st
  else if 3 < r.pos then some st
  else if r.rider ∈ ignore then some st
  else
    (classifyStepE f st r.link).map (fun c =>
      if is_allowed_event_type c.1 then
        if uidOf r ∈ seen then c.2
        else { c.2 with
               podiums := c.2.podiums ++ [r],
               newIds := insertNew c.2.newIds (uidOf r) }
      else c.2)

/-- The main loop over the full fetch model: once a record's
classification raises, the loop (and the run) is dead — no later record
is processed. -/
def runMainE (f : String → FetchResult) (now : Int) (seen ignore : List String)
    (cache0 : String → Option String) (results : List ResultRec) :
    Option MainState :=
  results.foldl (fun acc r => acc.bind (fun st => mainStepE f now seen ignore st r))
    (some ⟨[], [], fun _ => none, cache0, 0⟩)

/-- Outcome of the primary team-page fetch: raised, returned `None`, or
returned a page (modelled post-parsing as its tables' rows). -/
inductive PrimaryFetch where
  | exn
  | failed
  | page (doc : List (List Row))

/-- The two files the run persists: the dedup ledger (`weekly_seen.json`)
and the classification cache (`event_type_cache.json`). -/
structure Persisted where
  ledger : List String
  etypes : String → Option String

/-- Function `main` end to end over the full fetch model, returning the
persisted state.  A raised or `None`-returning primary fetch ends the
run with nothing persisted; a raised classification fetch kills the loop
before the cache save (line 430) and the ledger commit (line 443), so
nothing is persisted either; a completed loop saves the cache
unconditionally (line 430 precedes posting) and commits the ledger per
`mainCommit`. -/
def mainRunE (primary : PrimaryFetch) (f : String → FetchResult) (now : Int)
    (seen ignore : List String) (cache0 : String → Option String)
    (postOk alwaysPost : Bool) : Persisted :=
  match primary with
  | PrimaryFetch.exn => ⟨seen, cache0⟩
  | PrimaryFetch.failed => ⟨seen, cache0⟩
  | PrimaryFetch.page doc =>
    match runMainE f now seen ignore cache0 (parse_team_results doc) with
    | none => ⟨seen, cache0⟩
    | some st => ⟨mainCommit seen st.podiums st.newIds postOk alwaysPost, st.cache⟩

/-! ## Helper lemmas -/

theorem insertNew_mem {l : List String} {x y : String} :
    y ∈ insertNew l x ↔ y ∈ l ∨ y = x := by
  unfold insertNew
  split
  next hx =>
    constructor
    · exact Or.inl
    · rintro (h | rfl)
      · exact h
      · exact hx
  next hx =>
    simp [List.mem_append]

theorem classifyStep_fields (f : String → Option String) (st : MainState)
    (link : String) :
    ((classifyStep f st link).2).podiums = st.podiums ∧
    ((classifyStep f st link).2).newIds = st.newIds := by
  unfold classifyStep
  split
  · split
    · exact ⟨rfl, rfl⟩
    · exact ⟨rfl, rfl⟩
  · exact ⟨rfl, rfl⟩

theorem mainStep_cases (f : String → Option String) (now : Int)
    (seen ignore : List String) (st : MainState) (r : ResultRec) :
    ((mainStep f now seen ignore st r).podiums = st.podiums ∧
     (mainStep f now seen ignore st r).newIds = st.newIds) ∨
    ((mainStep f now seen ignore st r).podiums = st.podiums ++ [r] ∧
     (mainStep f now seen ignore st r).newIds = insertNew st.newIds (uidOf r) ∧
     now - 7 * 86400 ≤ r.date ∧ r.pos ≤ 3 ∧ r.rider ∉ ignore ∧ uidOf r ∉ seen) := by
  obtain ⟨hp, hn⟩ := classifyStep_fields f st r.link
  unfold mainStep
  split
  next h1 => exact Or.inl ⟨rfl, rfl⟩
  next h1 =>
    split
    next h2 => exact Or.inl ⟨rfl, rfl⟩
    next h2 =>
      split
      next h3 => exact Or.inl ⟨rfl, rfl⟩
      next h3 =>
        split
        next h4 =>
          split
          next h5 => exact Or.inl ⟨hp, hn⟩
          next h5 =>
            refine Or.inr ⟨?_, ?_, ?_, ?_, h3, h5⟩
            · show (classifyStep f st r.link).2.podiums ++ [r] = st.podiums ++ [r]
              rw [hp]
            · show insertNew (classifyStep f st r.link).2.newIds (uidOf r)
                = insertNew st.newIds (uidOf r)
              rw [hn]
            · omega
            · omega
        next h4 => exact Or.inl ⟨hp, hn⟩

theorem foldl_preserve {σ α : Type} {step : σ → α → σ} {P : σ → Prop}
    (hstep : ∀ s a, P s → P (step s a)) :
    ∀ (l : List α) (s : σ), P s → P (l.foldl step s) := by
  intro l
  induction l with
  | nil => exact fun s hs => hs
  | cons a t ih => exact fun s hs => ih _ (hstep s a hs)

/-- The invariant the main loop maintains: every accepted podium passed
the window, rank, ignore and dedup filters, and every fresh identity is
the identity of an accepted podium and was not in the loaded ledger. -/
def MainInv (now : Int) (seen ignore : List String) (st : MainState) : Prop :=
  (∀ r ∈ st.podiums,
     now - 7 * 86400 ≤ r.date ∧ r.pos ≤ 3 ∧ r.rider ∉ ignore ∧ uidOf r ∉ seen) ∧
  (∀ x ∈ st.newIds, (∃ r ∈ st.podiums, x = uidOf r) ∧ x ∉ seen)

theorem runMain_inv (f : String → Option String) (now : Int)
    (seen ignore : List String) (cache0 : String → Option String)
    (rs : List ResultRec) :
    MainInv now seen ignore (runMain f now seen ignore cache0 rs) := by
  have hstep : ∀ st rr, MainInv now seen ignore st →
      MainInv now seen ignore (mainStep f now seen ignore st rr) := by
    intro st rr hst
    rcases mainStep_cases f now seen ignore st rr with ⟨hp, hn⟩ | ⟨hp, hn, hd, hpos, hig, hsn⟩
    · constructor
      · rw [hp]; exact hst.1
      · rw [hn, hp]; exact hst.2
    · constructor
      · rw [hp]
        intro r hr
        rcases List.mem_append.mp hr with h | h
        · exact hst.1 r h
        · have : r = rr := List.mem_singleton.mp h
          subst this
          exact ⟨hd, hpos, hig, hsn⟩
      · rw [hn, hp]
        intro x hx
        rcases insertNew_mem.mp hx with h | rfl
        · obtain ⟨⟨r, hrmem, hxr⟩, hxs⟩ := hst.2 x h
          exact ⟨⟨r, List.mem_append_left _ hrmem, hxr⟩, hxs⟩
        · exact ⟨⟨rr, List.mem_append_right _ (List.mem_singleton.mpr rfl), rfl⟩, hsn⟩
  have hinit : MainInv now seen ignore ⟨[], [], fun _ => none, cache0, 0⟩ := by
    constructor
    · intro r hr
      simp at hr
    · intro x hx
      simp at hx
  exact foldl_preserve hstep rs _ hinit

theorem ledgerUnion_count_of_mem {seen newIds : List String} {x : String}
    (hx : x ∈ seen) :
    (ledgerUnion seen newIds).count x = seen.count x := by
  unfold ledgerUnion
  rw [List.count_append]
  have h0 : (newIds.filter (fun y => !seen.elem y)).count x = 0 := by
    rw [List.count_eq_zero]
    intro hmem
    have h2 := (List.mem_filter.mp hmem).2
    simp at h2
    exact h2 hx
  omega

theorem mainCommit_postFail (seen : List String) (podiums : List ResultRec)
    (newIds : List String) (alwaysPost : Bool) :
    mainCommit seen podiums newIds false alwaysPost = seen := by
  simp [mainCommit]

theorem mainCommit_mem {seen : List String} {podiums : List ResultRec}
    {newIds : List String} {postOk alwaysPost : Bool} {x : String}
    (hx : x ∈ mainCommit seen podiums newIds postOk alwaysPost) :
    x ∈ seen ∨ (postOk = true ∧ podiums ≠ [] ∧ x ∈ newIds ∧ x ∉ seen) := by
  unfold mainCommit at hx
  split at hx
  · exact Or.inl hx
  next h1 =>
    split at hx
    · exact Or.inl hx
    next h2 =>
      split at hx
      · exact Or.inl hx
      next h3 =>
        unfold ledgerUnion at hx
        rcases List.mem_append.mp hx with h | h
        · exact Or.inl h
        · have hm := List.mem_filter.mp h
          have hnot : x ∉ seen := by
            have h2' := hm.2
            simp at h2'
            exact h2'
          refine Or.inr ⟨?_, ?_, hm.1, hnot⟩
          · cases postOk
            · exact absurd (by decide) h2
            · rfl
          · intro hnil
            exact h3 (by simp [hnil])

/-- For a fetcher that never raises, the full-model classifier coincides
with the `Option`-model classifier. -/
theorem get_event_typeE_noexn (f' : String → Option String) (link : String)
    (cache : String → Option String) :
    get_event_typeE (fun l => FetchResult.page (f' l)) link cache
      = some (get_event_type f' link cache) := by
  unfold get_event_typeE get_event_type
  cases h : cache link
  · cases h2 : f' link <;> simp [h2]
  · simp

/-- For a fetcher that never raises, the full-model classification step
coincides with the `Option`-model step. -/
theorem classifyStepE_noexn (f' : String → Option String) (st : MainState)
    (link : String) :
    classifyStepE (fun l => FetchResult.page (f' l)) st link
      = some (classifyStep f' st link) := by
  unfold classifyStepE classifyStep
  have hg := get_event_typeE_noexn f' link st.cache
  cases h : st.checked link with
  | none =>
    rw [hg]
    simp
  | some e =>
    by_cases he : (e == "") = true
    · simp [he, hg]
    · simp [he]

/-- For a fetcher that never raises, the full-model loop iteration
coincides with the `Option`-model iteration. -/
theorem mainStepE_noexn (f' : String → Option String) (now : Int)
    (seen ignore : List String) (st : MainState) (r : ResultRec) :
    mainStepE (fun l => FetchResult.page (f' l)) now seen ignore st r
      = some (mainStep f' now seen ignore st r) := by
  unfold mainStepE mainStep
  rw [classifyStepE_noexn]
  split
  · rfl
  · split
    · rfl
    · split
      · rfl
      · simp

/-- For a fetcher that never raises, the full-model main loop completes
and coincides with the `Option`-model loop: the `Option`-model pipeline
used above is exactly the no-exception restriction of the full model. -/
theorem runMainE_noexn (f' : String → Option String) (now : Int)
    (seen ignore : List String) (cache0 : String → Option String)
    (rs : List ResultRec) :
    runMainE (fun l => FetchResult.page (f' l)) now seen ignore cache0 rs
      = some (runMain f' now seen ignore cache0 rs) := by
  have key : ∀ (l : List ResultRec) (st : MainState),
      List.foldl (fun acc r => acc.bind
          (fun s => mainStepE (fun l2 => FetchResult.page (f' l2)) now seen ignore s r))
        (some st) l
      = some (List.foldl (mainStep f' now seen ignore) st l) := by
    intro l
    induction l with
    | nil => intro st; rfl
    | cons a t ih =>
      intro st
      have h1 : List.foldl (fun acc r => acc.bind
            (fun s => mainStepE (fun l2 => FetchResult.page (f' l2)) now seen ignore s r))
            (some st) (a :: t)
          = List.foldl (fun acc r => acc.bind
              (fun s => mainStepE (fun l2 => FetchResult.page (f' l2)) now seen ignore s r))
              (mainStepE (fun l2 => FetchResult.page (f' l2)) now seen ignore st a) t := rfl
      rw [h1, mainStepE_noexn, ih, List.foldl_cons]
  exact key rs _

/-- Once the full-model loop has died, every remaining record is left
unprocessed. -/
theorem runMainE_absorb (f : String → FetchResult) (now : Int)
    (seen ignore : List String) (rs : List ResultRec) :
    List.foldl (fun acc r => acc.bind (fun st => mainStepE f now seen ignore st r))
      none rs = none := by
  induction rs with
  | nil => rfl
  | cons a t ih => exact ih

/-- If the full-model loop dies (a classification fetch raised), the run
persists nothing: ledger and classification cache keep their loaded
values. -/
theorem mainRunE_abort (doc : List (List Row)) (f : String → FetchResult)
    (now : Int) (seen ignore : List String) (cache0 : String → Option String)
    (postOk alwaysPost : Bool)
    (h : runMainE f now seen ignore cache0 (parse_team_results doc) = none) :
    mainRunE (PrimaryFetch.page doc) f now seen ignore cache0 postOk alwaysPost
      = ⟨seen, cache0⟩ := by
  simp only [mainRunE]
  rw [h]

/-! ## Concrete scenario data used by witnesses and counterexamples -/

/-- A reference "now": 2025-09-07T12:00:00Z (Helsinki summer time, UTC+3). -/
def tNow : Int := epochOfDateTime 2025 9 7 12 0 0

/-- Visible text of an event page that classifies as a race. -/
def racePageText : String := "Race results"

/-- Visible text of the login page returned on an expired cookie. -/
def loginPageText : String := "Please login with your password"

/-- A fetch collaborator that always serves the race page. -/
def fRace : String → Option String := fun _ => some racePageText

def evlink9 : String := "https://zwiftpower.com/events.php?zid=9"

def e1link : String := "https://zwiftpower.com/events.php?zid=101"

def e2link : String := "https://zwiftpower.com/events.php?zid=202"

/-- Disjointness of the deny and allow keyword sets. -/
theorem deny_not_allowed : ∀ x ∈ DENY_EVENT_TYPES, x ∉ ALLOWED_EVENT_TYPES := by
  decide

/-! ## Claim C7 -/

/-- C7: the category filter is fail-closed: a record is accepted iff its
normalized category is in the allow set; every deny-set category and
`"unknown"` are rejected; and classification checks the deny keywords
before the allow keywords, any deny match returning (a deny token)
immediately without consulting the allow set. -/
theorem claim_C7 :
    (∀ e, is_allowed_event_type e = true ↔
      normalize_event_type e ∈ ALLOWED_EVENT_TYPES) ∧
    (∀ kw ∈ DENY_EVENT_TYPES, is_allowed_event_type kw = false) ∧
    is_allowed_event_type "unknown" = false ∧
    (∀ txt, (∃ kw ∈ DENY_EVENT_TYPES, strContains (toLowerStr txt) kw = true) →
      detect_event_type_from_html txt ∈ DENY_EVENT_TYPES) := by
  refine ⟨?_, by decide, by decide, ?_⟩
  · intro e
    unfold is_allowed_event_type
    by_cases hd : normalize_event_type e ∈ DENY_EVENT_TYPES
    · rw [if_pos hd]
      constructor
      · intro hfalse
        exact absurd hfalse (by simp)
      · intro ha
        exact absurd ha (deny_not_allowed _ hd)
    · rw [if_neg hd]
      by_cases ha : normalize_event_type e ∈ ALLOWED_EVENT_TYPES
      · rw [if_pos ha]
        exact iff_of_true rfl ha
      · rw [if_neg ha]
        constructor
        · intro h
          exact absurd h (by simp)
        · intro h
          exact absurd h ha
  · rintro txt ⟨kw, hkw, hc⟩
    unfold detect_event_type_from_html detect_event_type_from_text
    cases hfind : DENY_EVENT_TYPES.find? (fun kw => strContains (toLowerStr txt) kw) with
    | none =>
      exact absurd hc (List.find?_eq_none.mp hfind kw hkw)
    | some k =>
      exact List.mem_of_find?_eq_some hfind

/-- C7 witness. -/
theorem claim_C7_witness :
    is_allowed_event_type "workout" = false ∧
    detect_event_type_from_html "Morning Workout race" ∈ DENY_EVENT_TYPES ∧
    (is_allowed_event_type "Race" = true ↔
      normalize_event_type "Race" ∈ ALLOWED_EVENT_TYPES) := by
  refine ⟨claim_C7.2.1 "workout" (by decide),
    claim_C7.2.2.2 "Morning Workout race" ⟨"workout", by decide, by decide⟩,
    claim_C7.1 "Race"⟩

/-! ## Claim C8 -/

/-- C8: classifying the same event reference twice against the same cache
performs exactly one fetch: a cache miss fetches once and writes the
token into the cache keyed by the reference before returning; the second
call performs no fetch and returns that cached token. -/
theorem claim_C8 (f : String → Option String) (link : String)
    (cache : String → Option String) (hmiss : cache link = none) :
    (get_event_type f link cache).fetches = 1 ∧
    (get_event_type f link cache).cache link
      = some (get_event_type f link cache).token ∧
    (get_event_type f link ((get_event_type f link cache).cache)).fetches = 0 ∧
    (get_event_type f link ((get_event_type f link cache).cache)).token
      = (get_event_type f link cache).token := by
  unfold get_event_type
  rw [hmiss]
  simp [updateMap]

/-- C8 witness. -/
theorem claim_C8_witness :
    (get_event_type fRace evlink9 emptyCache).fetches = 1 ∧
    (get_event_type fRace evlink9 emptyCache).cache evlink9
      = some (get_event_type fRace evlink9 emptyCache).token ∧
    (get_event_type fRace evlink9 ((get_event_type fRace evlink9 emptyCache).cache)).fetches = 0 ∧
    (get_event_type fRace evlink9 ((get_event_type fRace evlink9 emptyCache).cache)).token
      = (get_event_type fRace evlink9 emptyCache).token :=
  claim_C8 fRace evlink9 emptyCache rfl

/-! ## Claim C10 -/

def c10link : String := "https://zwiftpower.com/events.php?zid=301"

/-- A table row that extracts cleanly. -/
def c10row : Row :=
  ⟨["1", "2025-09-06 10:00:00", "x", "y"],
   [⟨"events.php?zid=301", "EvX"⟩, ⟨"/profile.php?z=9", "Dana"⟩]⟩

/-- The record `c10row` extracts to. -/
def c10rec : ResultRec :=
  ⟨"EvX", epochOfDateTime 2025 9 6 10 0 0, "Dana", 1, "?", c10link⟩

/-- A fetch collaborator whose `requests.get` always raises (timeout or
connection error); the exception propagates uncaught. -/
def exnFetch : String → FetchResult := fun _ => fetchE true 200 ""

/-- A fetch collaborator that always receives an HTTP error status, so
`fetch` **returns** `None` (no exception). -/
def noneFetch : String → FetchResult := fun _ => fetchE false 503 "server error"

/-- C10 counterexample: for an exception-type transport failure the
claimed permanent `"unknown"` poisoning does **not** happen — the raised
classification fetch kills the loop, so the run persists neither a cache
entry for the event (still unclassified, hence retryable) nor any ledger
change. -/
theorem claim_C10_counterexample :
    parse_team_results [[c10row]] = [c10rec] ∧
    runMainE exnFetch tNow [] [] emptyCache [c10rec] = none ∧
    (mainRunE (PrimaryFetch.page [[c10row]]) exnFetch tNow [] [] emptyCache
      true false).etypes c10link = none ∧
    (mainRunE (PrimaryFetch.page [[c10row]]) exnFetch tNow [] [] emptyCache
      true false).ledger = [] := by
  exact ⟨by decide, rfl, rfl, rfl⟩

/-- C10 amended: only a classification fetch that fails by **returning**
`None` (HTTP error status or detected login page) writes `"unknown"`
into the persistent cache — after which every later call for that
reference, with any fetch collaborator, performs no fetch, returns
`"unknown"`, and the fail-closed filter excludes the event's records
permanently.  A classification fetch that fails by **raising** writes
nothing: `get_event_typeE` propagates the exception, and a run whose
loop died persists neither cache nor ledger. -/
theorem claim_C10 (f : String → FetchResult) (link : String)
    (cache : String → Option String) (hmiss : cache link = none) :
    (f link = FetchResult.page none →
      ∃ o, get_event_typeE f link cache = some o ∧
        o.token = "unknown" ∧ o.cache link = some "unknown" ∧ o.fetches = 1 ∧
        (∀ g : String → FetchResult,
          ∃ o2, get_event_typeE g link o.cache = some o2 ∧
            o2.fetches = 0 ∧ o2.token = "unknown") ∧
        is_allowed_event_type "unknown" = false) ∧
    (f link = FetchResult.exn → get_event_typeE f link cache = none) ∧
    (∀ (doc : List (List Row)) (now : Int) (seen ignore : List String)
        (cache0 : String → Option String) (postOk alwaysPost : Bool),
      runMainE f now seen ignore cache0 (parse_team_results doc) = none →
      mainRunE (PrimaryFetch.page doc) f now seen ignore cache0 postOk alwaysPost
        = ⟨seen, cache0⟩) := by
  have hnorm : normalize_event_type "unknown" = "unknown" := by decide
  refine ⟨?_, ?_, ?_⟩
  · intro hfail
    refine ⟨⟨"unknown", updateMap cache link "unknown", 1⟩, ?_, rfl, ?_, rfl, ?_, by decide⟩
    · simp [get_event_typeE, hmiss, hfail, hnorm]
    · simp [updateMap]
    · intro g
      refine ⟨⟨"unknown", updateMap cache link "unknown", 0⟩, ?_, rfl, rfl⟩
      simp [get_event_typeE, updateMap]
  · intro hfail
    simp [get_event_typeE, hmiss, hfail]
  · intro doc now seen ignore cache0 postOk alwaysPost habort
    exact mainRunE_abort doc f now seen ignore cache0 postOk alwaysPost habort

/-- C10 witness: a returned-`None` failure (HTTP 503) poisons the cache
permanently; a raising failure propagates instead. -/
theorem claim_C10_witness :
    (∃ o, get_event_typeE noneFetch c10link emptyCache = some o ∧
      o.token = "unknown" ∧ o.cache c10link = some "unknown" ∧ o.fetches = 1 ∧
      (∀ g : String → FetchResult,
        ∃ o2, get_event_typeE g c10link o.cache = some o2 ∧
          o2.fetches = 0 ∧ o2.token = "unknown") ∧
      is_allowed_event_type "unknown" = false) ∧
    get_event_typeE exnFetch c10link emptyCache = none := by
  have h1 := claim_C10 noneFetch c10link emptyCache rfl
  have h2 := claim_C10 exnFetch c10link emptyCache rfl
  exact ⟨h1.1 (by decide), h2.2.1 rfl⟩

/-! ## Claim C9 -/

/-- A record whose event page serves the login page (auth failure on the
classification fetch). -/
def c9rec1 : ResultRec :=
  ⟨"Ev1", epochOfDateTime 2025 9 6 10 0 0, "Alice", 1, "A", e1link⟩

/-- A later record whose event page is healthy. -/
def c9rec2 : ResultRec :=
  ⟨"Ev2", epochOfDateTime 2025 9 6 11 0 0, "Bob", 2, "B", e2link⟩

/-- Full-model fetch collaborator: the first event's page is the login
page (status 200; the auth markers make `fetch` return `None`), every
other page is a healthy race page; nothing raises. -/
def c9fetchE : String → FetchResult :=
  fun l => if l == e1link then fetchE false 200 loginPageText
           else fetchE false 200 racePageText

/-- C9 counterexample: an authentication failure on a classification
fetch (`fetch` returns `None` for the login page served at `e1link`)
does **not** terminate the run: the loop completes, the later record
`c9rec2` is still processed and accepted, and the failed event is merely
degraded to `"unknown"` in the cache. -/
theorem claim_C9_counterexample :
    fetch_result 200 loginPageText = none ∧
    (runMainE c9fetchE tNow [] [] emptyCache [c9rec1, c9rec2]).map
      (fun st => st.podiums) = some [c9rec2] ∧
    (runMainE c9fetchE tNow [] [] emptyCache [c9rec1, c9rec2]).map
      (fun st => st.cache e1link) = some (some "unknown") := by
  exact ⟨by decide, by decide, by decide⟩

/-- C9 amended: (1) a primary-fetch failure of either kind — raised
transport error or returned `None` (which is how an auth failure
surfaces) — ends the run with nothing persisted; (2) an auth or HTTP
failure on a classification fetch returns `None` inside `fetch`, so the
event degrades to `"unknown"` (excluded fail-closed) and the run
continues; (3) a **raised** transport error on a classification fetch
kills that loop iteration, (4) a dead loop processes no further record,
and (5) a run whose loop died persists neither ledger nor cache — so
skip-and-continue recovery covers returned-`None` failures only, not
raised transport errors. -/
theorem claim_C9_amended :
    (∀ (f : String → FetchResult) (now : Int) (seen ignore : List String)
        (cache0 : String → Option String) (postOk alwaysPost : Bool),
      mainRunE PrimaryFetch.exn f now seen ignore cache0 postOk alwaysPost
          = ⟨seen, cache0⟩ ∧
      mainRunE PrimaryFetch.failed f now seen ignore cache0 postOk alwaysPost
          = ⟨seen, cache0⟩) ∧
    (∀ (f : String → FetchResult) (link : String) (cache : String → Option String),
      cache link = none → f link = FetchResult.page none →
      ∃ o, get_event_typeE f link cache = some o ∧ o.token = "unknown" ∧
        is_allowed_event_type o.token = false) ∧
    (∀ (f : String → FetchResult) (now : Int) (seen ignore : List String)
        (st : MainState) (r : ResultRec),
      ¬ r.date < now - 7 * 86400 → ¬ 3 < r.pos → r.rider ∉ ignore →
      st.checked r.link = none → st.cache r.link = none →
      f r.link = FetchResult.exn →
      mainStepE f now seen ignore st r = none) ∧
    (∀ (f : String → FetchResult) (now : Int) (seen ignore : List String)
        (rs : List ResultRec),
      List.foldl (fun acc r => acc.bind (fun st => mainStepE f now seen ignore st r))
        none rs = none) ∧
    (∀ (doc : List (List Row)) (f : String → FetchResult) (now : Int)
        (seen ignore : List String) (cache0 : String → Option String)
        (postOk alwaysPost : Bool),
      runMainE f now seen ignore cache0 (parse_team_results doc) = none →
      mainRunE (PrimaryFetch.page doc) f now seen ignore cache0 postOk alwaysPost
        = ⟨seen, cache0⟩) := by
  refine ⟨fun _ _ _ _ _ _ _ => ⟨rfl, rfl⟩, ?_, ?_, ?_, ?_⟩
  · intro f link cache h1 h2
    have hnorm : normalize_event_type "unknown" = "unknown" := by decide
    have hal : is_allowed_event_type "unknown" = false := by decide
    refine ⟨⟨"unknown", updateMap cache link "unknown", 1⟩, ?_, rfl, hal⟩
    simp [get_event_typeE, h1, h2, hnorm]
  · intro f now seen ignore st r h1 h2 h3 h4 h5 h6
    unfold mainStepE classifyStepE get_event_typeE
    rw [if_neg h1, if_neg h2, if_neg h3, h4, h5, h6]
    rfl
  · intro f now seen ignore rs
    exact runMainE_absorb f now seen ignore rs
  · intro doc f now seen ignore cache0 postOk alwaysPost habort
    exact mainRunE_abort doc f now seen ignore cache0 postOk alwaysPost habort

/-- C9 witness. -/
theorem claim_C9_witness :
    mainRunE PrimaryFetch.exn exnFetch 0 ["s"] [] emptyCache true false
        = ⟨["s"], emptyCache⟩ ∧
    mainRunE PrimaryFetch.failed exnFetch 0 ["s"] [] emptyCache true false
        = ⟨["s"], emptyCache⟩ ∧
    (∃ o, get_event_typeE c9fetchE e1link emptyCache = some o ∧
      o.token = "unknown" ∧ is_allowed_event_type o.token = false) ∧
    mainStepE exnFetch tNow [] [] ⟨[], [], fun _ => none, emptyCache, 0⟩ c10rec
        = none ∧
    List.foldl (fun acc r => acc.bind
        (fun st => mainStepE exnFetch tNow [] [] st r)) none [c10rec] = none ∧
    mainRunE (PrimaryFetch.page [[c10row]]) exnFetch tNow [] [] emptyCache true false
        = ⟨[], emptyCache⟩ := by
  have h := claim_C9_amended
  refine ⟨(h.1 exnFetch 0 ["s"] [] emptyCache true false).1,
    (h.1 exnFetch 0 ["s"] [] emptyCache true false).2,
    h.2.1 c9fetchE e1link emptyCache rfl (by decide),
    h.2.2.1 exnFetch tNow [] [] ⟨[], [], fun _ => none, emptyCache, 0⟩ c10rec
      (by decide) (by decide) (by decide) rfl rfl rfl,
    h.2.2.2.1 exnFetch tNow [] [] [c10rec],
    h.2.2.2.2 [[c10row]] exnFetch tNow [] [] emptyCache true false rfl⟩

/-! ## Claim C1 -/

/-- C1 amended: every record the main loop accepts satisfies
`now - 7*86400 ≤ date` — the temporal filter is a pure UTC-instant
comparison against `now` minus seven days (boundary included, no upper
bound), not a local-calendar-date window test. -/
theorem claim_C1_theorem (f : String → Option String) (now : Int)
    (seen ignore : List String) (cache0 : String → Option String)
    (rs : List ResultRec) (r : ResultRec)
    (hmem : r ∈ (runMain f now seen ignore cache0 rs).podiums) :
    now - 7 * 86400 ≤ r.date :=
  ((runMain_inv f now seen ignore cache0 rs).1 r hmem).1

/-- A record whose instant is exactly seven days before `tNow`. -/
def c1recBoundary : ResultRec :=
  ⟨"Ev", epochOfDateTime 2025 8 31 12 0 0, "Alice", 1, "A",
   "https://zwiftpower.com/events.php?zid=1"⟩

/-- A record inside the code's 7x24h instant window whose **Helsinki local
date** (2025-08-31, UTC+3) falls before the spec's window start
(2025-09-01). -/
def c1recOutside : ResultRec :=
  ⟨"Ev", epochOfDateTime 2025 8 31 13 0 0, "Alice", 1, "A",
   "https://zwiftpower.com/events.php?zid=1"⟩

/-- C1 witness: the boundary instant exactly seven days before now is
accepted, and the amended bound holds for it. -/
theorem claim_C1_witness :
    c1recBoundary ∈ (runMain fRace tNow [] [] emptyCache [c1recBoundary]).podiums ∧
    tNow - 7 * 86400 ≤ c1recBoundary.date :=
  ⟨by decide,
   claim_C1_theorem fRace tNow [] [] emptyCache [c1recBoundary] c1recBoundary (by decide)⟩

/-- C1 counterexample: `c1recOutside`'s local Helsinki calendar date
(UTC offset +3h = 10800 s at these instants) is **outside** the spec's
inclusive `[today - 6, today]` window, yet the code's filter passes it
into the accepted podiums — so window membership is not the claimed
local-calendar-date test. -/
theorem claim_C1_counterexample :
    spec_inWindow 10800 tNow c1recOutside.date = false ∧
    (runMain fRace tNow [] [] emptyCache [c1recOutside]).podiums = [c1recOutside] := by
  exact ⟨by decide, by decide⟩

/-! ## Claim C5 -/

/-- C5: a record whose identity is already in the loaded ledger is
excluded from the outgoing podium list, and committing leaves the
persisted ledger unchanged at that identity (its multiplicity is
exactly what it was before — no duplicate entry is added). -/
theorem claim_C5 (f : String → Option String) (now : Int)
    (seen ignore : List String) (cache0 : String → Option String)
    (rs : List ResultRec) (r : ResultRec) (postOk alwaysPost : Bool)
    (hseen : uidOf r ∈ seen) :
    r ∉ (runMain f now seen ignore cache0 rs).podiums ∧
    (mainCommit seen (runMain f now seen ignore cache0 rs).podiums
       (runMain f now seen ignore cache0 rs).newIds postOk alwaysPost).count (uidOf r)
      = seen.count (uidOf r) := by
  have hinv := runMain_inv f now seen ignore cache0 rs
  constructor
  · intro hmem
    exact (hinv.1 r hmem).2.2.2 hseen
  · unfold mainCommit
    split
    · rfl
    · split
      · rfl
      · split
        · rfl
        · exact ledgerUnion_count_of_mem hseen

/-- A record whose identity the witness ledger already contains. -/
def c5rec : ResultRec :=
  ⟨"Ev", epochOfDateTime 2025 9 3 10 0 0, "Alice", 1, "A",
   "https://zwiftpower.com/events.php?zid=7"⟩

/-- C5 witness. -/
theorem claim_C5_witness :
    uidOf c5rec ∈ [uidOf c5rec] ∧
    c5rec ∉ (runMain fRace tNow [uidOf c5rec] [] emptyCache [c5rec]).podiums ∧
    (mainCommit [uidOf c5rec]
       (runMain fRace tNow [uidOf c5rec] [] emptyCache [c5rec]).podiums
       (runMain fRace tNow [uidOf c5rec] [] emptyCache [c5rec]).newIds
       true false).count (uidOf c5rec)
      = [uidOf c5rec].count (uidOf c5rec) := by
  have h := claim_C5 fRace tNow [uidOf c5rec] [] emptyCache [c5rec] c5rec true false
    (List.mem_singleton.mpr rfl)
  exact ⟨List.mem_singleton.mpr rfl, h.1, h.2⟩

/-! ## Claim C6 -/

/-- C6: if posting fails, the ledger commit does not happen (the persisted
ledger equals the loaded one); and any identity in the committed ledger
beyond the loaded ones exists only when the post succeeded and is the
identity of a record actually included in the posted podium list. -/
theorem claim_C6 (doc : List (List Row)) (f : String → Option String) (now : Int)
    (seen ignore : List String) (cache0 : String → Option String) (alwaysPost : Bool) :
    mainRun (some doc) f now seen ignore cache0 false alwaysPost = seen ∧
    (∀ (postOk : Bool) (x : String),
      x ∈ mainRun (some doc) f now seen ignore cache0 postOk alwaysPost →
      x ∈ seen ∨ (postOk = true ∧
        ∃ r ∈ (runMain f now seen ignore cache0 (parse_team_results doc)).podiums,
          x = uidOf r ∧ x ∉ seen)) := by
  constructor
  · exact mainCommit_postFail seen _ _ alwaysPost
  · intro postOk x hx
    have hx' : x ∈ mainCommit seen
        (runMain f now seen ignore cache0 (parse_team_results doc)).podiums
        (runMain f now seen ignore cache0 (parse_team_results doc)).newIds
        postOk alwaysPost := hx
    rcases mainCommit_mem hx' with h | ⟨hp, hne, hxnew, hxnot⟩
    · exact Or.inl h
    · right
      obtain ⟨⟨r, hr, hxr⟩, _⟩ :=
        (runMain_inv f now seen ignore cache0 (parse_team_results doc)).2 x hxnew
      exact ⟨hp, r, hr, hxr, hxnot⟩

/-- C6 witness. -/
theorem claim_C6_witness :
    mainRun (some []) emptyCache 0 ["a"] [] emptyCache false false = ["a"] ∧
    ("a" ∈ (["a"] : List String) ∨ (true = true ∧
      ∃ r ∈ (runMain emptyCache 0 ["a"] [] emptyCache (parse_team_results [])).podiums,
        "a" = uidOf r ∧ "a" ∉ (["a"] : List String))) := by
  have h := claim_C6 [] emptyCache 0 ["a"] [] emptyCache false
  exact ⟨h.1, h.2 true "a" (by decide)⟩

/-! ## Row-extraction lemmas -/

/-- Any successful date-shape search finds a dash or slash separator, so
the matched text must contain one. -/
theorem searchDateLike_sep {l : List Char} (h : searchDateLike l = true) :
    ∃ c ∈ l, c = '-' ∨ c = '/' := by
  induction l with
  | nil => simp [searchDateLike] at h
  | cons a t ih =>
    simp only [searchDateLike, Bool.or_eq_true] at h
    rcases h with h1 | h2
    · rcases t with _ | ⟨b, t2⟩
      · simp [headMatch] at h1
      rcases t2 with _ | ⟨c, t3⟩
      · simp [headMatch] at h1
      rcases t3 with _ | ⟨d, t4⟩
      · simp [headMatch] at h1
      rcases t4 with _ | ⟨s, t5⟩
      · simp [headMatch] at h1
      simp only [headMatch, Bool.and_eq_true] at h1
      obtain ⟨⟨⟨⟨⟨_, _⟩, _⟩, _⟩, hsep⟩, _⟩ := h1
      have hs : s = '-' ∨ s = '/' := by
        rw [Bool.or_eq_true] at hsep
        rcases hsep with h | h
        · exact Or.inl (by simpa using h)
        · exact Or.inr (by simpa using h)
      exact ⟨s, by simp, hs⟩
    · obtain ⟨c, hc, hor⟩ := ih h2
      exact ⟨c, List.mem_cons_of_mem _ hc, hor⟩

/-- A cell accepted by the rank regex consists only of whitespace and
digits, so it can never also look like a date. -/
theorem matchRankCell_not_dateLike {s : String} {n : Nat}
    (h : matchRankCell s = some n) : dateLike s = false := by
  have hchars : ∀ c ∈ s.data, c.isWhitespace = true ∨ c.isDigit = true := by
    unfold matchRankCell at h
    simp only [] at h
    split at h
    next hcond =>
      simp only [Bool.and_eq_true] at hcond
      have hrest := hcond.2
      intro c hc
      have hsplit1 :
          s.data.takeWhile (fun c => c.isWhitespace)
            ++ s.data.dropWhile (fun c => c.isWhitespace) = s.data :=
        List.takeWhile_append_dropWhile _ _
      rcases List.mem_append.mp (by rw [hsplit1]; exact hc) with h1 | h2
      · exact Or.inl (List.mem_takeWhile_imp h1)
      · have hsplit2 :
            (s.data.dropWhile (fun c => c.isWhitespace)).takeWhile (fun c => c.isDigit)
              ++ (s.data.dropWhile (fun c => c.isWhitespace)).dropWhile (fun c => c.isDigit)
            = s.data.dropWhile (fun c => c.isWhitespace) :=
          List.takeWhile_append_dropWhile _ _
        rcases List.mem_append.mp (by rw [hsplit2]; exact h2) with h3 | h4
        · exact Or.inr (List.mem_takeWhile_imp h3)
        · exact Or.inl (List.all_eq_true.mp hrest c h4)
    next =>
      exact absurd h (by simp)
  cases hdl : dateLike s
  · rfl
  · exfalso
    obtain ⟨c, hcmem, hcor⟩ := searchDateLike_sep hdl
    rcases hcor with rfl | rfl
    · rcases hchars _ hcmem with hw | hd
      · exact absurd hw (by decide)
      · exact absurd hd (by decide)
    · rcases hchars _ hcmem with hw | hd
      · exact absurd hw (by decide)
      · exact absurd hd (by decide)

/-- Inversion of a successful row extraction: the rank came from the
first fully-numeric cell and is nonzero, the timestamp text is the first
date-shaped cell and parsed to the record's instant, the row's first
anchor is the event link, and the rider is the profile-anchor's text
with the `"Unknown"` fallback. -/
theorem processRow_some_inv {row : Row} {rec : ResultRec}
    (h : processRow row = some rec) :
    ∃ p, List.findSome? matchRankCell row.tds = some p ∧ p ≠ 0 ∧ rec.pos = p ∧
    ∃ dtText, row.tds.find? (fun t => dateLike t) = some dtText ∧
      strp dtText = some rec.date ∧
    ∃ a, row.anchors.head? = some a ∧ strContains a.href "events.php" = true ∧
      rec.rider = (match row.anchors.find? (fun a2 => hasProfileLink a2.href) with
                   | some a2 => if a2.text == "" then "Unknown" else a2.text
                   | none => "Unknown") := by
  unfold processRow at h
  simp only [] at h
  split at h
  next hlen => exact absurd h (by simp)
  next hlen =>
    split at h
    next => exact absurd h (by simp)
    next p hrank =>
      split at h
      next hp0 => exact absurd h (by simp)
      next hp0 =>
        split at h
        next => exact absurd h (by simp)
        next dtText hdt =>
          split at h
          next => exact absurd h (by simp)
          next a ha =>
            split at h
            next hev =>
              split at h
              next => exact absurd h (by simp)
              next w hw =>
                simp only [Option.some.injEq] at h
                subst h
                refine ⟨p, hrank, by simpa using hp0, rfl, dtText, hdt, hw, a, ha, hev, ?_⟩
                cases hfind : row.anchors.find? (fun a2 => hasProfileLink a2.href) with
                | none => simp
                | some a2 =>
                  by_cases htxt : (a2.text == "") = true
                  · simp [htxt]
                  · simp [htxt]
            next hev => exact absurd h (by simp)

/-! ## Claim C2 -/

/-- C2 amended: a row whose first hyperlink is missing or is not an event
link yields no record (the event link is required, and it must be the
row's **first** anchor); an actor-profile link however is **not**
required — when every anchor fails the profile pattern, the record is
still produced with the sentinel rider `"Unknown"`. -/
theorem claim_C2_theorem :
    (∀ row : Row,
      row.anchors.head?.all (fun a => !strContains a.href "events.php") = true →
      processRow row = none) ∧
    (∀ (row : Row) (rec : ResultRec), processRow row = some rec →
      (∀ a ∈ row.anchors, hasProfileLink a.href = false) →
      rec.rider = "Unknown") := by
  constructor
  · intro row hno
    unfold processRow
    by_cases hlen : row.tds.length < 4
    · rw [if_pos hlen]
    · rw [if_neg hlen]
      cases hrank : List.findSome? matchRankCell row.tds with
      | none => rfl
      | some p =>
        simp only []
        by_cases hp0 : (p == 0) = true
        · rw [if_pos hp0]
        · rw [if_neg hp0]
          cases hdt : row.tds.find? (fun t => dateLike t) with
          | none => rfl
          | some dtText =>
            simp only []
            cases ha : row.anchors.head? with
            | none => rfl
            | some a =>
              simp only []
              rw [ha] at hno
              simp only [Option.all] at hno
              rw [if_neg (by simp [Bool.not_eq_true'] at hno; simp [hno])]
  · intro row rec h hprof
    obtain ⟨p, _, _, _, dtText, _, _, a, _, _, hrid⟩ := processRow_some_inv h
    have hfind : row.anchors.find? (fun a2 => hasProfileLink a2.href) = none :=
      List.find?_eq_none.mpr (fun a2 ha2 => by simp [hprof a2 ha2])
    rw [hfind] at hrid
    exact hrid

/-- A row with a valid rank, date and event link but no actor-profile
link anywhere. -/
def rowNoProfile : Row :=
  ⟨["1", "2025-09-03 10:00:00", "x", "y"], [⟨"events.php?zid=5", "EvFive"⟩]⟩

/-- The record the no-profile row produces. -/
def c2rec : ResultRec :=
  ⟨"EvFive", epochOfDateTime 2025 9 3 10 0 0, "Unknown", 1, "?",
   "https://zwiftpower.com/events.php?zid=5"⟩

/-- A row whose first anchor is the profile link (the event link comes
second): the first-anchor event check fails and the row is skipped. -/
def rowProfileFirst : Row :=
  ⟨["1", "2025-09-03 10:00:00", "x", "y"],
   [⟨"/profile.php?z=88", "Carol"⟩, ⟨"events.php?zid=5", "EvFive"⟩]⟩

/-- C2 counterexample: a row lacking any actor-profile link still
produces a Result Record (with rider `"Unknown"`), contradicting
"both links are required". -/
theorem claim_C2_counterexample :
    (∀ a ∈ rowNoProfile.anchors, hasProfileLink a.href = false) ∧
    processRow rowNoProfile = some c2rec := by
  exact ⟨by decide, by decide⟩

/-- C2 witness. -/
theorem claim_C2_witness :
    processRow rowProfileFirst = none ∧ c2rec.rider = "Unknown" :=
  ⟨claim_C2_theorem.1 rowProfileFirst (by decide),
   claim_C2_theorem.2 rowNoProfile c2rec (by decide) (by decide)⟩

/-! ## Claim C3 -/

/-- C3 amended: the rank of every produced record is a positive integer
taken from a cell whose entire text is digits (with optional surrounding
whitespace) — such a cell can never look like a date, so date-shaped
cells never produce a rank; but there is **no** upper bound of 999 and
ordinal suffixes (`1st`, `2nd`, …) are **not** accepted. -/
theorem claim_C3_theorem (row : Row) (rec : ResultRec)
    (h : processRow row = some rec) :
    1 ≤ rec.pos ∧
    ∃ td ∈ row.tds, matchRankCell td = some rec.pos ∧ dateLike td = false := by
  obtain ⟨p, hrank, hp0, hpos, _⟩ := processRow_some_inv h
  constructor
  · omega
  · obtain ⟨l₁, a, l₂, hsplit, hfa, _⟩ := List.findSome?_eq_some_iff.mp hrank
    refine ⟨a, ?_, ?_, matchRankCell_not_dateLike hfa⟩
    · rw [hsplit]
      exact List.mem_append_cons_self
    · rw [hpos]
      exact hfa

/-- A row whose only rank-like cell uses an ordinal suffix. -/
def rowOrdinal : Row :=
  ⟨["1st", "2025-09-03 10:00:00", "x", "y"],
   [⟨"events.php?zid=5", "Ev"⟩, ⟨"/profile.php?z=12", "Alice"⟩]⟩

/-- A row whose rank cell holds 1000. -/
def rowBigRank : Row :=
  ⟨["1000", "2025-09-03 10:00:00", "x", "y"],
   [⟨"events.php?zid=5", "Ev"⟩, ⟨"/profile.php?z=12", "Alice"⟩]⟩

/-- The record the 1000-rank row produces. -/
def c3rec : ResultRec :=
  ⟨"Ev", epochOfDateTime 2025 9 3 10 0 0, "Alice", 1000, "?",
   "https://zwiftpower.com/events.php?zid=5"⟩

/-- C3 counterexample: the ordinal `"1st"` yields no rank at all (the row
is skipped), and a rank of 1000 — far above the claimed bound of 999 —
is produced. -/
theorem claim_C3_counterexample :
    processRow rowOrdinal = none ∧
    processRow rowBigRank = some c3rec ∧ 999 < c3rec.pos := by
  exact ⟨by decide, by decide, by decide⟩

/-- C3 witness. -/
theorem claim_C3_witness :
    1 ≤ c3rec.pos ∧
    ∃ td ∈ rowBigRank.tds, matchRankCell td = some c3rec.pos ∧ dateLike td = false :=
  claim_C3_theorem rowBigRank c3rec (by decide)

/-! ## Claim C4 -/

/-- C4 amended: every produced record's timestamp comes from the first
date-shaped cell and did parse, but detection does **not** guarantee
parseability — a row whose detected date-like cell fails all four
formats is dropped. -/
theorem claim_C4_theorem (row : Row) (rec : ResultRec)
    (h : processRow row = some rec) :
    ∃ txt, row.tds.find? (fun t => dateLike t) = some txt ∧
      dateLike txt = true ∧ strp txt = some rec.date := by
  obtain ⟨p, _, _, _, txt, hdt, hw, _⟩ := processRow_some_inv h
  exact ⟨txt, hdt, by simpa using List.find?_some hdt, hw⟩

/-- A row whose date cell is detected as date-like but parses with no
accepted format. -/
def rowSlashDate : Row :=
  ⟨["2", "2025/09/03", "x", "y"],
   [⟨"events.php?zid=5", "Ev"⟩, ⟨"/profile.php?z=12", "Alice"⟩]⟩

/-- The same row with the dash-separated (parseable) date style. -/
def rowDashDate : Row :=
  ⟨["2", "2025-09-03", "x", "y"],
   [⟨"events.php?zid=5", "Ev"⟩, ⟨"/profile.php?z=12", "Alice"⟩]⟩

/-- The record the dash-date row produces. -/
def c4rec : ResultRec :=
  ⟨"Ev", epochOfDateTime 2025 9 3 0 0 0, "Alice", 2, "?",
   "https://zwiftpower.com/events.php?zid=5"⟩

/-- C4 counterexample: `"2025/09/03"` passes the date-detection heuristic
yet fails every strptime format, so the row is dropped for an
unparseable timestamp; the identical row with `"2025-09-03"` succeeds.
The two heuristics disagree in the other direction as well:
`"09/09/2025"` parses (via the day/month/year slash format) but is never
detected, since its four-digit run is not followed by a separator — the
detected and the parseable texts are incomparable sets, not nested. -/
theorem claim_C4_counterexample :
    dateLike "2025/09/03" = true ∧
    strp "2025/09/03" = none ∧
    processRow rowSlashDate = none ∧
    processRow rowDashDate = some c4rec ∧
    dateLike "09/09/2025" = false ∧
    strp "09/09/2025" = some (epochOfDateTime 2025 9 9 0 0 0) := by
  exact ⟨by decide, by decide, by decide, by decide, by decide, by decide⟩

/-- C4 witness. -/
theorem claim_C4_witness :
    ∃ txt, rowDashDate.tds.find? (fun t => dateLike t) = some txt ∧
      dateLike txt = true ∧ strp txt = some c4rec.date :=
  claim_C4_theorem rowDashDate c4rec (by decide)
